import Mathlib

/-!
Verification of the core logic of `src/fetch_cloudflare_stats.py`
(CloudflareStatsTracker): threshold evaluation (`check_thresholds`),
history recording and pruning (`update_history`), history saving
(`_save_history`), chart selection (`generate_charts`), report building
(`generate_report`) and the notification sequence (`send_report`).

Modelling conventions:
* Python dicts are modelled as association lists (`List (k × v)`); lookup
  returns the value of the first matching key, and insertion overwrites the
  value in place for an existing key and appends a fresh key at the end,
  exactly matching the insertion-order semantics of Python dicts.
* Calendar dates (ISO `YYYY-MM-DD` strings in the source, compared with the
  string order `>=`) are modelled as day ordinals `Nat`; ISO date strings
  compare lexicographically in the same order as the underlying dates, and
  `(datetime.now() - timedelta(days=W))` becomes the truncated `D - W`.
* Request counts are integers (they come from JSON); percentage change,
  computed with Python float division, is modelled with exact rationals `ℚ`.
  The `:.1f` float format is modelled by exact rounding to one decimal digit,
  which agrees with Python on all inputs considered here.
* Exceptions that the code can raise (only `ZeroDivisionError` in
  `check_thresholds`) are modelled with `Except`.
-/

/-- Lookup in an association list: the value of the first pair whose key is
`k` (Python `d[k]` / `k in d`). -/
def lookupA {κ : Type} {ν : Type} [DecidableEq κ] : List (κ × ν) → κ → Option ν
  | [], _ => none
  | p :: l, k => if p.1 = k then some p.2 else lookupA l k

/-- Insertion into an association list with Python-dict semantics: an
existing key keeps its position and gets the new value, a fresh key is
appended at the end (`d[k] = v`). -/
def insertA {κ : Type} {ν : Type} [DecidableEq κ] (l : List (κ × ν)) (k : κ) (v : ν) :
    List (κ × ν) :=
  if l.any (fun p => decide (p.1 = k)) then
    l.map (fun p => if p.1 = k then (k, v) else p)
  else
    l ++ [(k, v)]

/-- Substring test (Python `pat in s`): some suffix of `s` starts with `pat`. -/
def containsSub (s pat : String) : Bool :=
  (List.range (s.data.length + 1)).any (fun i => pat.data.isPrefixOf (s.data.drop i))

/-- Digit grouping for Python's `:,` format: a comma every three digits,
counted from the right. -/
def commaDigits (ds : List Char) : List Char :=
  ((ds.reverse.enum).map
    (fun p => if p.1 % 3 = 2 ∧ p.1 + 1 < ds.length then [p.2, ','] else [p.2])).flatten.reverse

/-- Python's `f"{n:,}"` formatting of an integer: decimal digits with a comma
as thousands separator. -/
def fmtComma (n : Int) : String :=
  if n < 0 then "-" ++ String.mk (commaDigits (toString n.natAbs).data)
  else String.mk (commaDigits (toString n.natAbs).data)

/-- Multiple of one tenth nearest to `|q|` (ties away from zero), scaled by
ten: the digit stream of `|q|` rounded to one decimal place. -/
def tenths (q : ℚ) : Nat :=
  (20 * q.num.natAbs + q.den) / (2 * q.den)

/-- Model of Python's `f"{q:.1f}"`: the value rounded to one decimal digit.
This is the exact-rational idealisation of the float formatting; it agrees
with CPython on every value appearing in this development. -/
def fmtPct1 (q : ℚ) : String :=
  if q < 0 then
    "-" ++ toString (tenths q / 10) ++ "." ++ toString (tenths q % 10)
  else
    toString (tenths q / 10) ++ "." ++ toString (tenths q % 10)

/-- Model of Python's `f"{abs(q):.1f}"` (used by decrease alerts). -/
def fmtAbs1 (q : ℚ) : String :=
  toString (tenths q / 10) ++ "." ++ toString (tenths q % 10)

/-- Percentage change `((requests - yesterday_requests) / yesterday_requests) * 100`
(line 289/301 of the source), in exact rational arithmetic. Phrased with
`Rat.divInt` so that it evaluates by kernel reduction; the lemma
`pctChange_eq` below proves it equal to the literal field expression. -/
def pctChange (requests yesterday_requests : Int) : ℚ :=
  Rat.divInt ((requests - yesterday_requests) * 100) yesterday_requests

/-- The `Rat.divInt` phrasing of `pctChange` agrees with the expression of
source line 289/301, `((requests - yesterday_requests) / yesterday_requests) * 100`,
read over the exact rationals. -/
theorem pctChange_eq (requests yesterday_requests : Int) :
    pctChange requests yesterday_requests =
      ((requests : ℚ) - (yesterday_requests : ℚ)) / (yesterday_requests : ℚ) * 100 := by
  rw [pctChange, Rat.divInt_eq_div]
  push_cast
  ring

/-- Percentage change as the code actually computes it: Python raises
`ZeroDivisionError` when the denominator is zero; `Except` models that. -/
def pctChangeE (requests yesterday_requests : Int) : Except String ℚ :=
  if yesterday_requests = 0 then Except.error "ZeroDivisionError"
  else Except.ok (pctChange requests yesterday_requests)

/-- Threshold configuration built by `_get_thresholds`: four integers
(parsed with `int(...)` from the environment, default 30/30/35/35). -/
structure Thresholds where
  pages_request_increase : Int
  pages_request_decrease : Int
  workers_request_increase : Int
  workers_request_decrease : Int
deriving DecidableEq, Repr

/-- Per-kind history map: resource name to (date to request count), the
resource-major layout `history_data["pages"][project][date]` of the source. -/
abbrev KindHistory := List (String × List (Nat × Int))

/-- The two-kind history structure `{"pages": {...}, "workers": {...}}`. -/
structure HistoryData where
  pages : KindHistory
  workers : KindHistory
deriving DecidableEq, Repr

/-- Per-kind current snapshot: resource name to request count. -/
abbrev Snapshot := List (String × Int)

/-- The mutable state of `CloudflareStatsTracker` that the core methods read
and write: `current_data`, `history_data` and `thresholds`. -/
structure TrackerState where
  current_pages : Snapshot
  current_workers : Snapshot
  history : HistoryData
  thresholds : Thresholds
deriving DecidableEq, Repr

/-- Increase-alert text for a Pages project (source lines 291-292). -/
def pagesIncreaseMsg (project : String) (pct : ℚ) (y requests : Int) : String :=
  "📈 警告: Pages项目 \x27" ++ project ++ "\x27 请求量增长异常 (" ++ fmtPct1 pct ++
    "%)\n昨日: " ++ fmtComma y ++ " → 今日: " ++ fmtComma requests

/-- Decrease-alert text for a Pages project (source lines 294-295). -/
def pagesDecreaseMsg (project : String) (pct : ℚ) (y requests : Int) : String :=
  "📉 警告: Pages项目 \x27" ++ project ++ "\x27 请求量下降异常 (" ++ fmtAbs1 pct ++
    "%)\n昨日: " ++ fmtComma y ++ " → 今日: " ++ fmtComma requests

/-- Increase-alert text for a Workers service (source lines 303-304). -/
def workersIncreaseMsg (worker : String) (pct : ℚ) (y requests : Int) : String :=
  "📈 警告: Workers服务 \x27" ++ worker ++ "\x27 请求量增长异常 (" ++ fmtPct1 pct ++
    "%)\n昨日: " ++ fmtComma y ++ " → 今日: " ++ fmtComma requests

/-- Decrease-alert text for a Workers service (source lines 306-307). -/
def workersDecreaseMsg (worker : String) (pct : ℚ) (y requests : Int) : String :=
  "📉 警告: Workers服务 \x27" ++ worker ++ "\x27 请求量下降异常 (" ++ fmtAbs1 pct ++
    "%)\n昨日: " ++ fmtComma y ++ " → 今日: " ++ fmtComma requests

/-- Yesterday's stored count for one resource:
`history[kind][r][yesterday]` when both lookups succeed. -/
def yesterdayCount (hist : KindHistory) (yesterday : Nat) (r : String) : Option Int :=
  (lookupA hist r).bind (fun m => lookupA m yesterday)

/-- Alerts emitted for a single Pages project in one `check_thresholds`
iteration (source lines 285-295): skip if the project or yesterday's date is
missing from history, skip if yesterday's count is not positive, otherwise
emit an increase alert when the change reaches the increase threshold and a
decrease alert when it reaches the negated decrease threshold. -/
def pagesAlertsFor (th : Thresholds) (hist : KindHistory) (yesterday : Nat)
    (project : String) (requests : Int) : List String :=
  match lookupA hist project with
  | none => []
  | some projHist =>
    match lookupA projHist yesterday with
    | none => []
    | some y =>
      if 0 < y then
        (if (th.pages_request_increase : ℚ) ≤ pctChange requests y then
          [pagesIncreaseMsg project (pctChange requests y) y requests] else []) ++
        (if pctChange requests y ≤ -(th.pages_request_decrease : ℚ) then
          [pagesDecreaseMsg project (pctChange requests y) y requests] else [])
      else []

/-- Alerts emitted for a single Workers service in one `check_thresholds`
iteration (source lines 297-307). -/
def workersAlertsFor (th : Thresholds) (hist : KindHistory) (yesterday : Nat)
    (worker : String) (requests : Int) : List String :=
  match lookupA hist worker with
  | none => []
  | some wHist =>
    match lookupA wHist yesterday with
    | none => []
    | some y =>
      if 0 < y then
        (if (th.workers_request_increase : ℚ) ≤ pctChange requests y then
          [workersIncreaseMsg worker (pctChange requests y) y requests] else []) ++
        (if pctChange requests y ≤ -(th.workers_request_decrease : ℚ) then
          [workersDecreaseMsg worker (pctChange requests y) y requests] else [])
      else []

/-- The `check_thresholds` method (source lines 279-309): iterate over the
current Pages snapshot then the current Workers snapshot, appending the
alerts of each resource in iteration order. `yesterday` is the day ordinal
of `datetime.now() - timedelta(days=1)`. -/
def check_thresholds (s : TrackerState) (yesterday : Nat) : List String :=
  (s.current_pages.map
    (fun p => pagesAlertsFor s.thresholds s.history.pages yesterday p.1 p.2)).flatten ++
  (s.current_workers.map
    (fun p => workersAlertsFor s.thresholds s.history.workers yesterday p.1 p.2)).flatten

/-- Per-project body of `check_thresholds` with the division modelled as the
fallible operation it is in Python. -/
def pagesAlertsForE (th : Thresholds) (hist : KindHistory) (yesterday : Nat)
    (project : String) (requests : Int) : Except String (List String) :=
  match lookupA hist project with
  | none => Except.ok []
  | some projHist =>
    match lookupA projHist yesterday with
    | none => Except.ok []
    | some y =>
      if 0 < y then
        match pctChangeE requests y with
        | Except.error e => Except.error e
        | Except.ok pct =>
          Except.ok
            ((if (th.pages_request_increase : ℚ) ≤ pct then
              [pagesIncreaseMsg project pct y requests] else []) ++
            (if pct ≤ -(th.pages_request_decrease : ℚ) then
              [pagesDecreaseMsg project pct y requests] else []))
      else Except.ok []

/-- Per-worker body of `check_thresholds` with the fallible division. -/
def workersAlertsForE (th : Thresholds) (hist : KindHistory) (yesterday : Nat)
    (worker : String) (requests : Int) : Except String (List String) :=
  match lookupA hist worker with
  | none => Except.ok []
  | some wHist =>
    match lookupA wHist yesterday with
    | none => Except.ok []
    | some y =>
      if 0 < y then
        match pctChangeE requests y with
        | Except.error e => Except.error e
        | Except.ok pct =>
          Except.ok
            ((if (th.workers_request_increase : ℚ) ≤ pct then
              [workersIncreaseMsg worker pct y requests] else []) ++
            (if pct ≤ -(th.workers_request_decrease : ℚ) then
              [workersDecreaseMsg worker pct y requests] else []))
      else Except.ok []

/-- Sequence a list of fallible alert computations, concatenating results:
the loop of `check_thresholds`, stopping at the first raised exception. -/
def exceptJoinMap {α : Type} (f : α → Except String (List String)) :
    List α → Except String (List String)
  | [] => Except.ok []
  | x :: xs =>
    match f x with
    | Except.error e => Except.error e
    | Except.ok a =>
      match exceptJoinMap f xs with
      | Except.error e => Except.error e
      | Except.ok b => Except.ok (a ++ b)

/-- The `check_thresholds` method with exceptions modelled explicitly: it
either raises (`Except.error`) or returns the alert list. -/
def check_thresholdsE (s : TrackerState) (yesterday : Nat) : Except String (List String) :=
  match exceptJoinMap
      (fun p => pagesAlertsForE s.thresholds s.history.pages yesterday p.1 p.2)
      s.current_pages with
  | Except.error e => Except.error e
  | Except.ok a =>
    match exceptJoinMap
        (fun p => workersAlertsForE s.thresholds s.history.workers yesterday p.1 p.2)
        s.current_workers with
    | Except.error e => Except.error e
    | Except.ok b => Except.ok (a ++ b)

/-- Read-only rendering of the `check_thresholds` method as a state
transformer: the method reads `current_data`, `history_data` and
`thresholds`, appends to a local `alerts` list, and returns it; no field of
`self` is assigned, so the state component is passed through unchanged. -/
def check_thresholdsM (s : TrackerState) (yesterday : Nat) :
    TrackerState × List String :=
  (s, check_thresholds s yesterday)

/-- The recording loop of `update_history` for one kind (source lines
254-257 resp. 259-262): for each resource of the current snapshot, create
its (empty) history map if missing and overwrite its entry for `today`. -/
def recordKind (hist : KindHistory) (current : Snapshot) (today : Nat) : KindHistory :=
  current.foldl
    (fun h p => insertA h p.1 (insertA ((lookupA h p.1).getD []) today p.2)) hist

/-- The pruning loop of `update_history` for one kind (source lines 267-270
resp. 272-275): keep only dates `>= cutoff` in each resource map, then drop
resources whose map became empty. -/
def pruneKind (hist : KindHistory) (cutoff : Nat) : KindHistory :=
  (hist.map (fun p => (p.1, p.2.filter (fun q => decide (cutoff ≤ q.1))))).filter
    (fun p => !p.2.isEmpty)

/-- The `update_history` method (source lines 250-277) up to the final
`_save_history` call: record today's snapshots, then prune with
`cutoff_date = today - storage_days`. `today` is the day ordinal of
`datetime.now()` and `storageDays` the `HISTORY_STORAGE_DAYS` value. -/
def update_history (s : TrackerState) (today storageDays : Nat) : HistoryData :=
  { pages := pruneKind (recordKind s.history.pages s.current_pages today) (today - storageDays)
    workers := pruneKind (recordKind s.history.workers s.current_workers today) (today - storageDays) }

/-- File-system actions visible in `_save_history`. -/
inductive FsOp where
  | makedirs (dir : String)
  | openTrunc (path : String)
  | write (path data : String)
  | closeFile (path : String)
  | rename (src dst : String)
deriving DecidableEq, Repr

/-- Predicate picking out rename steps. -/
def FsOp.isRename : FsOp → Bool
  | FsOp.rename _ _ => true
  | _ => false

/-- Parent directory of a path, as `os.path.dirname` computes it for the
relative slash paths used here. -/
def dirname (p : String) : String :=
  String.intercalate "/" ((p.splitOn "/").dropLast)

/-- The sequence of file-system operations performed by `_save_history`
(source lines 179-187): ensure the directory exists, then open the history
file itself for truncating write, dump the JSON text, close. `contents`
stands for the serialized `history_data`. -/
def save_history_ops (historyFile contents : String) : List FsOp :=
  [FsOp.makedirs (dirname historyFile), FsOp.openTrunc historyFile,
   FsOp.write historyFile contents, FsOp.closeFile historyFile]

/-- Sort an association list of snapshot entries by resource name (Python
`sorted(d.items())`; names are unique in a dict, so comparing names alone
is the tuple order). Insertion sort is used because it reduces in the
kernel; only the resulting order matters. -/
def sortedItems (l : Snapshot) : Snapshot :=
  List.insertionSort (fun a b => a.1 ≤ b.1) l

/-- One line of the per-kind report section (source lines 365 and 371). -/
def reportLine (p : String × Int) : String :=
  "- *" ++ p.1 ++ "*: " ++ fmtComma p.2 ++ " 请求\n"

/-- The `generate_report` method (source lines 357-376): header with the
formatted timestamp `dateStr`, one section per non-empty kind listing
`name: count` sorted by name, and a fixed footer. -/
def generate_report (s : TrackerState) (dateStr : String) : String :=
  "📊 *Cloudflare 统计报告*\n\n" ++ "📅 统计日期: " ++ dateStr ++ "\n\n" ++
  (if s.current_pages.isEmpty then ""
   else "### 📄 Pages 项目请求量\n" ++
     String.join ((sortedItems s.current_pages).map reportLine) ++ "\n") ++
  (if s.current_workers.isEmpty then ""
   else "### 💻 Workers 服务请求量\n" ++
     String.join ((sortedItems s.current_workers).map reportLine) ++ "\n") ++
  "🔄 数据每24小时更新一次\n" ++ "📈 图表展示最近7天趋势"

/-- The per-resource series actually plotted for one kind (source lines
319-323 resp. 338-342): resources with more than one stored date get one
line across their dates in sorted order; the others are skipped. -/
def chartSeriesKind (hist : KindHistory) : List (String × List (Nat × Int)) :=
  hist.filterMap (fun p =>
    if 1 < p.2.length then
      some (p.1,
        (List.insertionSort (fun a b => a ≤ b) (p.2.map Prod.fst)).filterMap
          (fun d => (lookupA p.2 d).map (fun c => (d, c))))
    else none)

/-- The `generate_charts` method (source lines 311-355), reduced to which
chart files it produces: one per kind whose history dict is non-empty. -/
def generate_charts (h : HistoryData) : List String :=
  (if h.pages.isEmpty then [] else ["pages_trend.png"]) ++
  (if h.workers.isEmpty then [] else ["workers_trend.png"])

/-- A notification handed to the Telegram bot. -/
inductive Notification where
  | text (message : String)
  | photo (path caption : String)
deriving DecidableEq, Repr

/-- The alert message composed on line 388 of the source. -/
def alertMessage (alerts : List String) : String :=
  "\n\n⚠️ *异常情况警报* ⚠️\n\n" ++ String.intercalate "\n\n" alerts

/-- Chart caption selection (source lines 392-396): Python tests the
substring `"pages"` of the chart path. -/
def captionFor (chart : String) : String :=
  if containsSub chart "pages" then "📄 Cloudflare Pages 项目请求量趋势图"
  else "💻 Cloudflare Workers 服务请求量趋势图"

/-- The notifications the `send_report` method attempts, in order (source
lines 378-397). `ok` tells whether a given send succeeds (the boolean the
Telegram wrapper returns). The method sends the report text and returns
early if that send fails; otherwise it sends the alert message when there
are alerts, then every chart — consulting `ok` for none of those. -/
def send_report_attempts (s : TrackerState) (yesterday : Nat)
    (ok : Notification → Bool) (dateStr : String) : List Notification :=
  if ok (Notification.text (generate_report s dateStr)) = false then
    [Notification.text (generate_report s dateStr)]
  else
    Notification.text (generate_report s dateStr) ::
      ((if (check_thresholds s yesterday).isEmpty then []
        else [Notification.text (alertMessage (check_thresholds s yesterday))]) ++
        (generate_charts s.history).map (fun c => Notification.photo c (captionFor c)))

example : check_thresholds
    { current_pages := [("proj1", 1000)], current_workers := [],
      history := { pages := [("proj1", [(9, 700)])], workers := [] },
      thresholds := ⟨30, 30, 35, 35⟩ } 9 =
    ["📈 警告: Pages项目 \x27proj1\x27 请求量增长异常 (42.9%)\n昨日: 700 → 今日: 1,000"] := by
  decide

example : check_thresholds
    { current_pages := [], current_workers := [("svc1", 500)],
      history := { pages := [], workers := [("svc1", [(9, 800)])] },
      thresholds := ⟨30, 30, 35, 30⟩ } 9 =
    ["📉 警告: Workers服务 \x27svc1\x27 请求量下降异常 (37.5%)\n昨日: 800 → 今日: 500"] := by
  decide

section AssocLemmas

variable {κ ν : Type} [DecidableEq κ]

theorem lookupA_eq_none_of_any_false {l : List (κ × ν)} {k : κ}
    (h : l.any (fun q => decide (q.1 = k)) = false) : lookupA l k = none := by
  induction l with
  | nil => rfl
  | cons p t ih =>
    simp only [List.any_cons, Bool.or_eq_false_iff, decide_eq_false_iff_not] at h
    simp only [lookupA, if_neg h.1]
    exact ih h.2

theorem lookupA_append_left {l l' : List (κ × ν)} {k : κ} {v : ν}
    (h : lookupA l k = some v) : lookupA (l ++ l') k = some v := by
  induction l with
  | nil => cases h
  | cons p t ih =>
    by_cases hp : p.1 = k
    · simp only [lookupA, if_pos hp] at h ⊢
      exact h
    · simp only [lookupA, if_neg hp] at h ⊢
      exact ih h

theorem lookupA_append_none {l l' : List (κ × ν)} {k : κ}
    (h : lookupA l k = none) : lookupA (l ++ l') k = lookupA l' k := by
  induction l with
  | nil => rfl
  | cons p t ih =>
    by_cases hp : p.1 = k
    · simp [lookupA, if_pos hp] at h
    · simp only [lookupA, if_neg hp] at h ⊢
      exact ih h

theorem lookupA_map_overwrite {l : List (κ × ν)} {k : κ} {v : ν}
    (h : l.any (fun q => decide (q.1 = k)) = true) :
    lookupA (l.map (fun q => if q.1 = k then (k, v) else q)) k = some v := by
  induction l with
  | nil => cases h
  | cons p t ih =>
    by_cases hp : p.1 = k
    · simp [List.map_cons, if_pos hp, lookupA]
    · simp only [List.any_cons, Bool.or_eq_true, decide_eq_true_eq] at h
      rcases h with h | h
      · exact absurd h hp
      · simp only [List.map_cons, if_neg hp, lookupA, if_neg hp]
        exact ih h

theorem lookupA_map_overwrite_ne {l : List (κ × ν)} {k k' : κ} {v : ν} (hk : k' ≠ k) :
    lookupA (l.map (fun q => if q.1 = k then (k, v) else q)) k' = lookupA l k' := by
  induction l with
  | nil => rfl
  | cons p t ih =>
    by_cases hp : p.1 = k
    · have h1 : (if p.1 = k then (k, v) else p) = (k, v) := if_pos hp
      have h3 : ¬ (k = k') := fun hh => hk hh.symm
      have h2 : ¬ (p.1 = k') := by rw [hp]; exact h3
      simp only [List.map_cons, h1, lookupA, if_neg h3, if_neg h2]
      exact ih
    · have h1 : (if p.1 = k then (k, v) else p) = p := if_neg hp
      simp only [List.map_cons, h1, lookupA]
      by_cases hp' : p.1 = k'
      · rw [if_pos hp', if_pos hp']
      · rw [if_neg hp', if_neg hp']
        exact ih

theorem lookupA_insertA_self (l : List (κ × ν)) (k : κ) (v : ν) :
    lookupA (insertA l k v) k = some v := by
  unfold insertA
  by_cases h : l.any (fun q => decide (q.1 = k)) = true
  · rw [if_pos h]
    exact lookupA_map_overwrite h
  · rw [if_neg h]
    rw [lookupA_append_none (lookupA_eq_none_of_any_false (Bool.eq_false_iff.mpr h))]
    simp [lookupA]

theorem lookupA_insertA_ne (l : List (κ × ν)) (k k' : κ) (v : ν) (hk : k' ≠ k) :
    lookupA (insertA l k v) k' = lookupA l k' := by
  unfold insertA
  by_cases h : l.any (fun q => decide (q.1 = k)) = true
  · rw [if_pos h]
    exact lookupA_map_overwrite_ne hk
  · rw [if_neg h]
    cases hl : lookupA l k' with
    | some w => exact lookupA_append_left hl
    | none =>
      have h3 : ¬ (k = k') := fun hh => hk hh.symm
      rw [lookupA_append_none hl]
      simp [lookupA, h3]

theorem mem_of_lookupA {l : List (κ × ν)} {k : κ} {v : ν}
    (h : lookupA l k = some v) : (k, v) ∈ l := by
  induction l with
  | nil => cases h
  | cons p t ih =>
    by_cases hp : p.1 = k
    · simp only [lookupA, if_pos hp] at h
      injection h with h2
      subst hp
      subst h2
      exact List.mem_cons_self _ _
    · simp only [lookupA, if_neg hp] at h
      exact List.mem_cons_of_mem _ (ih h)

theorem insertA_entries {l : List (κ × ν)} {k : κ} {v : ν} :
    ∀ q ∈ insertA l k v, q.1 = k → q = (k, v) := by
  intro q hq hqk
  unfold insertA at hq
  by_cases h : l.any (fun p => decide (p.1 = k)) = true
  · rw [if_pos h] at hq
    rcases List.mem_map.mp hq with ⟨q₀, _hq₀, hf⟩
    by_cases h₀ : q₀.1 = k
    · rw [if_pos h₀] at hf
      exact hf.symm
    · rw [if_neg h₀] at hf
      rw [← hf] at hqk
      exact absurd hqk h₀
  · rw [if_neg h] at hq
    rcases List.mem_append.mp hq with hq | hq
    · simp only [List.any_eq_true, not_exists, not_and, Bool.not_eq_true,
        decide_eq_false_iff_not] at h
      exact absurd hqk (h q hq)
    · simpa using hq

theorem lookupA_filter_pos {m : List (κ × ν)} {k : κ} {v : ν} {q : κ × ν → Bool}
    (hent : ∀ p ∈ m, p.1 = k → p = (k, v)) (hl : lookupA m k = some v)
    (hq : q (k, v) = true) : lookupA (m.filter q) k = some v := by
  induction m with
  | nil => cases hl
  | cons p t ih =>
    by_cases hp : p.1 = k
    · have hpv : p = (k, v) := hent p (List.mem_cons_self p t) hp
      subst hpv
      simp [List.filter_cons, hq, lookupA]
    · simp only [lookupA, if_neg hp] at hl
      have hent' : ∀ p ∈ t, p.1 = k → p = (k, v) :=
        fun p hpmem => hent p (List.mem_cons_of_mem _ hpmem)
      simp only [List.filter_cons]
      by_cases hfp : q p = true
      · simp only [hfp, if_pos trivial, lookupA, if_neg hp]
        exact ih hent' hl
      · simp only [Bool.eq_false_iff.mpr hfp]
        exact ih hent' hl

end AssocLemmas

theorem lookupA_pruneKind {L : KindHistory} {cutoff : Nat} {r : String}
    {m : List (Nat × Int)} (hl : lookupA L r = some m)
    (hne : ¬ (m.filter (fun q => decide (cutoff ≤ q.1))).isEmpty = true) :
    lookupA (pruneKind L cutoff) r = some (m.filter (fun q => decide (cutoff ≤ q.1))) := by
  induction L with
  | nil => cases hl
  | cons p t ih =>
    by_cases hp : p.1 = r
    · simp only [lookupA, if_pos hp] at hl
      cases hl
      simp only [pruneKind, List.map_cons, List.filter_cons]
      rw [Bool.not_eq_true] at hne
      simp only [Bool.not_eq_true, hne, Bool.not_false, if_pos trivial, lookupA, if_pos hp]
    · simp only [lookupA, if_neg hp] at hl
      simp only [pruneKind, List.map_cons, List.filter_cons] at ih ⊢
      by_cases hk : (!(p.2.filter (fun q => decide (cutoff ≤ q.1))).isEmpty) = true
      · simp only [hk, if_pos trivial, lookupA, if_neg hp]
        exact ih hl
      · simp only [Bool.eq_false_iff.mpr hk]
        exact ih hl

theorem recordKind_cons (hist : KindHistory) (p : String × Int) (t : Snapshot)
    (today : Nat) :
    recordKind hist (p :: t) today =
      recordKind (insertA hist p.1 (insertA ((lookupA hist p.1).getD []) today p.2)) t today :=
  rfl

theorem recordKind_lookupA_of_forall_ne {cur : Snapshot} {r : String}
    (hist : KindHistory) (today : Nat) (h : ∀ p ∈ cur, p.1 ≠ r) :
    lookupA (recordKind hist cur today) r = lookupA hist r := by
  induction cur generalizing hist with
  | nil => rfl
  | cons p t ih =>
    rw [recordKind_cons, ih _ (fun q hq => h q (List.mem_cons_of_mem _ hq))]
    exact lookupA_insertA_ne _ _ _ _ (fun hr => h p (List.mem_cons_self p t) hr.symm)

theorem recordKind_lookup_today {cur : Snapshot} {r : String} {c : Int}
    (hist : KindHistory) (today : Nat) (hnd : (cur.map Prod.fst).Nodup)
    (hl : lookupA cur r = some c) :
    ∃ m, lookupA (recordKind hist cur today) r = some m ∧ lookupA m today = some c ∧
      ∀ p ∈ m, p.1 = today → p = (today, c) := by
  induction cur generalizing hist with
  | nil => cases hl
  | cons p t ih =>
    simp only [List.map_cons, List.nodup_cons] at hnd
    by_cases hp : p.1 = r
    · simp only [lookupA, if_pos hp] at hl
      cases hl
      refine ⟨insertA ((lookupA hist p.1).getD []) today p.2, ?_, lookupA_insertA_self _ _ _,
        insertA_entries⟩
      rw [recordKind_cons, recordKind_lookupA_of_forall_ne _ _ ?keys]
      · rw [← hp]
        exact lookupA_insertA_self _ _ _
      case keys =>
        intro q hq hqr
        exact hnd.1 (by rw [hp, ← hqr]; exact List.mem_map_of_mem Prod.fst hq)
    · simp only [lookupA, if_neg hp] at hl
      rw [recordKind_cons]
      exact ih _ hnd.2 hl

theorem exceptJoinMap_ok {α : Type} {f : α → Except String (List String)}
    {g : α → List String} (l : List α) (h : ∀ x ∈ l, f x = Except.ok (g x)) :
    exceptJoinMap f l = Except.ok ((l.map g).flatten) := by
  induction l with
  | nil => rfl
  | cons x t ih =>
    simp only [exceptJoinMap, h x (List.mem_cons_self x t),
      ih (fun y hy => h y (List.mem_cons_of_mem _ hy)), List.map_cons, List.flatten_cons]

theorem pagesAlertsForE_ok (th : Thresholds) (hist : KindHistory) (yesterday : Nat)
    (project : String) (requests : Int) :
    pagesAlertsForE th hist yesterday project requests =
      Except.ok (pagesAlertsFor th hist yesterday project requests) := by
  cases hl : lookupA hist project with
  | none => simp [pagesAlertsForE, pagesAlertsFor, hl]
  | some projHist =>
    cases hl2 : lookupA projHist yesterday with
    | none => simp [pagesAlertsForE, pagesAlertsFor, hl, hl2]
    | some y =>
      by_cases hy : 0 < y
      · have hyne : y ≠ 0 := by omega
        simp [pagesAlertsForE, pagesAlertsFor, hl, hl2, hy, pctChangeE, hyne]
      · simp [pagesAlertsForE, pagesAlertsFor, hl, hl2, hy]

theorem workersAlertsForE_ok (th : Thresholds) (hist : KindHistory) (yesterday : Nat)
    (worker : String) (requests : Int) :
    workersAlertsForE th hist yesterday worker requests =
      Except.ok (workersAlertsFor th hist yesterday worker requests) := by
  cases hl : lookupA hist worker with
  | none => simp [workersAlertsForE, workersAlertsFor, hl]
  | some wHist =>
    cases hl2 : lookupA wHist yesterday with
    | none => simp [workersAlertsForE, workersAlertsFor, hl, hl2]
    | some y =>
      by_cases hy : 0 < y
      · have hyne : y ≠ 0 := by omega
        simp [workersAlertsForE, workersAlertsFor, hl, hl2, hy, pctChangeE, hyne]
      · simp [workersAlertsForE, workersAlertsFor, hl, hl2, hy]

theorem check_thresholdsE_ok (s : TrackerState) (yesterday : Nat) :
    check_thresholdsE s yesterday = Except.ok (check_thresholds s yesterday) := by
  unfold check_thresholdsE check_thresholds
  rw [exceptJoinMap_ok s.current_pages
      (fun p _ => pagesAlertsForE_ok s.thresholds s.history.pages yesterday p.1 p.2),
    exceptJoinMap_ok s.current_workers
      (fun p _ => workersAlertsForE_ok s.thresholds s.history.workers yesterday p.1 p.2)]

/-! ## Claim theorems -/

theorem pagesAlertsFor_skip (th : Thresholds) {hist : KindHistory} {yesterday : Nat}
    {r : String} (c : Int)
    (h : yesterdayCount hist yesterday r = none ∨
      ∃ y, yesterdayCount hist yesterday r = some y ∧ y ≤ 0) :
    pagesAlertsFor th hist yesterday r c = [] := by
  cases hl : lookupA hist r with
  | none => simp [pagesAlertsFor, hl]
  | some m =>
    cases hl2 : lookupA m yesterday with
    | none => simp [pagesAlertsFor, hl, hl2]
    | some y =>
      have hYC : yesterdayCount hist yesterday r = some y := by
        simp [yesterdayCount, hl, hl2]
      have hy : ¬ (0 < y) := by
        rcases h with h | ⟨y', hy', hle⟩
        · rw [hYC] at h
          cases h
        · rw [hYC] at hy'
          injection hy' with hyy
          omega
      simp [pagesAlertsFor, hl, hl2, hy]

theorem workersAlertsFor_skip (th : Thresholds) {hist : KindHistory} {yesterday : Nat}
    {r : String} (c : Int)
    (h : yesterdayCount hist yesterday r = none ∨
      ∃ y, yesterdayCount hist yesterday r = some y ∧ y ≤ 0) :
    workersAlertsFor th hist yesterday r c = [] := by
  cases hl : lookupA hist r with
  | none => simp [workersAlertsFor, hl]
  | some m =>
    cases hl2 : lookupA m yesterday with
    | none => simp [workersAlertsFor, hl, hl2]
    | some y =>
      have hYC : yesterdayCount hist yesterday r = some y := by
        simp [yesterdayCount, hl, hl2]
      have hy : ¬ (0 < y) := by
        rcases h with h | ⟨y', hy', hle⟩
        · rw [hYC] at h
          cases h
        · rw [hYC] at hy'
          injection hy' with hyy
          omega
      simp [workersAlertsFor, hl, hl2, hy]

/-- C1: for every current snapshot, history and threshold configuration,
`check_thresholds` never raises (the exception-aware rendering returns
`Except.ok` of the pure result), and a resource whose yesterday baseline is
missing or not positive gets neither an increase nor a decrease alert. -/
theorem check_thresholds_never_raises (s : TrackerState) (yesterday : Nat) :
    check_thresholdsE s yesterday = Except.ok (check_thresholds s yesterday) ∧
    (∀ r c, (yesterdayCount s.history.pages yesterday r = none ∨
        ∃ y, yesterdayCount s.history.pages yesterday r = some y ∧ y ≤ 0) →
      pagesAlertsFor s.thresholds s.history.pages yesterday r c = []) ∧
    (∀ r c, (yesterdayCount s.history.workers yesterday r = none ∨
        ∃ y, yesterdayCount s.history.workers yesterday r = some y ∧ y ≤ 0) →
      workersAlertsFor s.thresholds s.history.workers yesterday r c = []) :=
  ⟨check_thresholdsE_ok s yesterday,
   fun _ c h => pagesAlertsFor_skip s.thresholds c h,
   fun _ c h => workersAlertsFor_skip s.thresholds c h⟩

/-- Scenario C of the spec: yesterday's count 0, today's 50. -/
def sC : TrackerState :=
  { current_pages := [("proj1", 50)], current_workers := [],
    history := { pages := [("proj1", [(9, 0)])], workers := [] },
    thresholds := ⟨30, 30, 35, 35⟩ }

/-- Witness for C1 at scenario C: the zero baseline yields no alert and no
exception. -/
theorem check_thresholds_never_raises_witness :
    check_thresholdsE sC 9 = Except.ok (check_thresholds sC 9) ∧
    pagesAlertsFor sC.thresholds sC.history.pages 9 "proj1" 50 = [] :=
  ⟨(check_thresholds_never_raises sC 9).1,
   (check_thresholds_never_raises sC 9).2.1 "proj1" 50 (Or.inr ⟨0, by decide, by decide⟩)⟩

/-- C2: with both thresholds of a kind strictly positive, no single
resource can receive both an increase and a decrease alert in one
evaluation: its alert list has at most one element. -/
theorem no_double_alert (th : Thresholds) (hist : KindHistory) (yesterday : Nat)
    (r : String) (c : Int) :
    (0 < th.pages_request_increase → 0 < th.pages_request_decrease →
      (pagesAlertsFor th hist yesterday r c).length ≤ 1) ∧
    (0 < th.workers_request_increase → 0 < th.workers_request_decrease →
      (workersAlertsFor th hist yesterday r c).length ≤ 1) := by
  constructor
  · intro hI hD
    cases hl : lookupA hist r with
    | none => simp [pagesAlertsFor, hl]
    | some m =>
      cases hl2 : lookupA m yesterday with
      | none => simp [pagesAlertsFor, hl, hl2]
      | some y =>
        by_cases hy : 0 < y
        · by_cases hinc : (th.pages_request_increase : ℚ) ≤ pctChange c y
          · by_cases hdec : pctChange c y ≤ -(th.pages_request_decrease : ℚ)
            · exfalso
              have h1 : (0 : ℚ) < th.pages_request_increase := by exact_mod_cast hI
              have h2 : (0 : ℚ) < th.pages_request_decrease := by exact_mod_cast hD
              linarith
            · simp [pagesAlertsFor, hl, hl2, hy, hinc, hdec]
          · by_cases hdec : pctChange c y ≤ -(th.pages_request_decrease : ℚ) <;>
              simp [pagesAlertsFor, hl, hl2, hy, hinc, hdec]
        · simp [pagesAlertsFor, hl, hl2, hy]
  · intro hI hD
    cases hl : lookupA hist r with
    | none => simp [workersAlertsFor, hl]
    | some m =>
      cases hl2 : lookupA m yesterday with
      | none => simp [workersAlertsFor, hl, hl2]
      | some y =>
        by_cases hy : 0 < y
        · by_cases hinc : (th.workers_request_increase : ℚ) ≤ pctChange c y
          · by_cases hdec : pctChange c y ≤ -(th.workers_request_decrease : ℚ)
            · exfalso
              have h1 : (0 : ℚ) < th.workers_request_increase := by exact_mod_cast hI
              have h2 : (0 : ℚ) < th.workers_request_decrease := by exact_mod_cast hD
              linarith
            · simp [workersAlertsFor, hl, hl2, hy, hinc, hdec]
          · by_cases hdec : pctChange c y ≤ -(th.workers_request_decrease : ℚ) <;>
              simp [workersAlertsFor, hl, hl2, hy, hinc, hdec]
        · simp [workersAlertsFor, hl, hl2, hy]

/-- Witness for C2 at scenario A with thresholds 30/30: the increase alert
fires alone. -/
theorem no_double_alert_witness :
    (0 : Int) < 30 ∧
    (pagesAlertsFor ⟨30, 30, 35, 35⟩ [("proj1", [(9, 700)])] 9 "proj1" 1000).length ≤ 1 :=
  ⟨by decide,
   (no_double_alert ⟨30, 30, 35, 35⟩ [("proj1", [(9, 700)])] 9 "proj1" 1000).1
     (by decide) (by decide)⟩

/-- Scenario A of the spec: yesterday 700, today 1000, thresholds 30. -/
def sA : TrackerState :=
  { current_pages := [("proj1", 1000)], current_workers := [],
    history := { pages := [("proj1", [(9, 700)])], workers := [] },
    thresholds := ⟨30, 30, 35, 35⟩ }

/-- The alert text the code produces in scenario A. -/
def alertA : String :=
  "📈 警告: Pages项目 \x27proj1\x27 请求量增长异常 (42.9%)\n昨日: 700 → 今日: 1,000"

/-- Counterexample for C3: in scenario A exactly one increase alert is
emitted, but its text does not contain the plain digit string "1000" — the
code formats today's count with a thousands separator, as "1,000". -/
theorem scenarioA_no_plain_1000 :
    check_thresholds sA 9 = [alertA] ∧ containsSub alertA "1000" = false := by
  decide

/-- C3 (amended): in scenario A the computed change is 300/7 ≈ 42.857%, one
increase alert is emitted for proj1, and its text shows "42.9%", yesterday's
count "700" and today's count in thousands-separated form "1,000". -/
theorem scenarioA_alert :
    pctChange 1000 700 = 300 / 7 ∧
    check_thresholds sA 9 = [alertA] ∧
    containsSub alertA "42.9%" = true ∧
    containsSub alertA "700" = true ∧
    containsSub alertA "1,000" = true := by
  refine ⟨?_, by decide, by decide, by decide, by decide⟩
  rw [pctChange, Rat.divInt_eq_div]
  norm_num

/-- C10: `check_thresholds` is read-only — the state component of the
method leaves `current_data`, `history_data` and `thresholds` untouched,
and its only output is the returned alert list. -/
theorem check_thresholds_readonly (s : TrackerState) (yesterday : Nat) :
    (check_thresholdsM s yesterday).1.current_pages = s.current_pages ∧
    (check_thresholdsM s yesterday).1.current_workers = s.current_workers ∧
    (check_thresholdsM s yesterday).1.history = s.history ∧
    (check_thresholdsM s yesterday).1.thresholds = s.thresholds ∧
    (check_thresholdsM s yesterday).2 = check_thresholds s yesterday :=
  ⟨rfl, rfl, rfl, rfl, rfl⟩

theorem pruneKind_mem {L : KindHistory} {cutoff : Nat} {r : String}
    {m : List (Nat × Int)} (h : (r, m) ∈ pruneKind L cutoff) :
    (∀ d c, (d, c) ∈ m → cutoff ≤ d) ∧ m ≠ [] := by
  unfold pruneKind at h
  rcases List.mem_filter.mp h with ⟨hmem, hne⟩
  rcases List.mem_map.mp hmem with ⟨p, _hp, heq⟩
  have hm : m = p.2.filter (fun q => decide (cutoff ≤ q.1)) := by
    have := congrArg Prod.snd heq
    simpa using this.symm
  subst hm
  constructor
  · intro d c hdc
    have := (List.mem_filter.mp hdc).2
    simpa using this
  · intro hnil
    rw [hnil] at hne
    simp at hne

/-- C4: after `update_history` with current date `D` and retention window
`W`, every remaining (resource, date, count) entry of either kind has
`D - W ≤ date`, every remaining resource has a non-empty date map, and every
resource of the current snapshot keeps its just-written entry for `D`. -/
theorem update_history_prune_spec (s : TrackerState) (D W : Nat)
    (hp : (s.current_pages.map Prod.fst).Nodup)
    (hw : (s.current_workers.map Prod.fst).Nodup) :
    (∀ r m, ((r, m) ∈ (update_history s D W).pages ∨
        (r, m) ∈ (update_history s D W).workers) →
      (∀ d c, (d, c) ∈ m → D - W ≤ d) ∧ m ≠ []) ∧
    (∀ r c, lookupA s.current_pages r = some c →
      ∃ m, lookupA (update_history s D W).pages r = some m ∧ lookupA m D = some c) ∧
    (∀ r c, lookupA s.current_workers r = some c →
      ∃ m, lookupA (update_history s D W).workers r = some m ∧ lookupA m D = some c) := by
  refine ⟨?_, ?_, ?_⟩
  · rintro r m (h | h)
    · exact pruneKind_mem h
    · exact pruneKind_mem h
  · intro r c hl
    obtain ⟨m₀, hm₀, hD, hent⟩ := recordKind_lookup_today s.history.pages D hp hl
    have hq : (fun q : Nat × Int => decide (D - W ≤ q.1)) (D, c) = true := by
      simp [Nat.sub_le]
    have hfl : lookupA (m₀.filter (fun q => decide (D - W ≤ q.1))) D = some c :=
      lookupA_filter_pos hent hD hq
    have hne : ¬ (m₀.filter (fun q => decide (D - W ≤ q.1))).isEmpty = true := by
      intro hempty
      have hmem : (D, c) ∈ m₀.filter (fun q => decide (D - W ≤ q.1)) :=
        List.mem_filter.mpr ⟨mem_of_lookupA hD, hq⟩
      rw [List.isEmpty_iff] at hempty
      rw [hempty] at hmem
      cases hmem
    exact ⟨m₀.filter (fun q => decide (D - W ≤ q.1)), lookupA_pruneKind hm₀ hne, hfl⟩
  · intro r c hl
    obtain ⟨m₀, hm₀, hD, hent⟩ := recordKind_lookup_today s.history.workers D hw hl
    have hq : (fun q : Nat × Int => decide (D - W ≤ q.1)) (D, c) = true := by
      simp [Nat.sub_le]
    have hfl : lookupA (m₀.filter (fun q => decide (D - W ≤ q.1))) D = some c :=
      lookupA_filter_pos hent hD hq
    have hne : ¬ (m₀.filter (fun q => decide (D - W ≤ q.1))).isEmpty = true := by
      intro hempty
      have hmem : (D, c) ∈ m₀.filter (fun q => decide (D - W ≤ q.1)) :=
        List.mem_filter.mpr ⟨mem_of_lookupA hD, hq⟩
      rw [List.isEmpty_iff] at hempty
      rw [hempty] at hmem
      cases hmem
    exact ⟨m₀.filter (fun q => decide (D - W ≤ q.1)), lookupA_pruneKind hm₀ hne, hfl⟩

/-- State for the C4 witness: one stale date (day 0), one retained date
(day 40), current date 45, window 30. -/
def s4 : TrackerState :=
  { current_pages := [("a", 5)], current_workers := [("w", 7)],
    history := { pages := [("a", [(0, 1), (40, 2)]), ("old", [(0, 3)])], workers := [] },
    thresholds := ⟨30, 30, 35, 35⟩ }

/-- Witness for C4: with nodup snapshots, resource "a" keeps its freshly
written day-45 entry after the prune. -/
theorem update_history_prune_spec_witness :
    ([("a", (5 : Int))].map Prod.fst).Nodup ∧
    (∃ m, lookupA (update_history s4 45 30).pages "a" = some m ∧ lookupA m 45 = some 5) :=
  ⟨by decide,
   (update_history_prune_spec s4 45 30 (by decide) (by decide)).2.1 "a" 5 (by decide)⟩

/-- Counterexample for C5: record `{a: 5}` then `{b: 7}` for the same date
3; resource `a` still stores count 5 at date 3 afterwards, although the
second snapshot holds no entry for `a` — so the stored counts for that date
are not exactly the second snapshot's counts (recording merges at the
resource level across calls). -/
theorem record_not_full_overwrite :
    lookupA (recordKind (recordKind [] [("a", 5)] 3) [("b", 7)] 3) "a" = some [(3, 5)] ∧
    lookupA [("b", (7 : Int))] "a" = none := by
  decide

/-- C5 (amended): recording is an overwrite per resource, not a merge per
resource: for every resource present in the second snapshot, the count
stored for the date is exactly the second snapshot's count, and lookup is
functional, so the history holds at most one count per (resource, date).
Resources only in the first snapshot keep their first-snapshot counts. -/
theorem record_overwrites_per_resource (hist : KindHistory) (s1 s2 : Snapshot)
    (D : Nat) (r : String) (c : Int) (hnd : (s2.map Prod.fst).Nodup)
    (hl : lookupA s2 r = some c) :
    ∃ m, lookupA (recordKind (recordKind hist s1 D) s2 D) r = some m ∧
      lookupA m D = some c := by
  obtain ⟨m, h1, h2, _⟩ := recordKind_lookup_today (recordKind hist s1 D) D hnd hl
  exact ⟨m, h1, h2⟩

/-- Witness for C5 (amended): recording `{a: 5}` then `{a: 9}` for date 3
leaves 9 stored for `a` at date 3. -/
theorem record_overwrites_per_resource_witness :
    ([("a", (9 : Int))].map Prod.fst).Nodup ∧
    (∃ m, lookupA (recordKind (recordKind [] [("a", 5)] 3) [("a", 9)] 3) "a" = some m ∧
      lookupA m 3 = some 9) :=
  ⟨by decide,
   record_overwrites_per_resource [] [("a", 5)] [("a", 9)] 3 "a" 9 (by decide) (by decide)⟩

/-- The empty tracker state: both kinds entirely empty after fetch. -/
def sEmpty : TrackerState :=
  { current_pages := [], current_workers := [],
    history := { pages := [], workers := [] },
    thresholds := ⟨30, 30, 35, 35⟩ }

/-- Counterexample for C6: with both resource kinds entirely empty, `main`
still runs `send_report` unconditionally and the report text is delivered —
there is no early short-circuit in the code. -/
theorem empty_fetch_still_reports :
    Notification.text (generate_report sEmpty "2026-10-12") ∈
      send_report_attempts sEmpty 9 (fun _ => true) "2026-10-12" := by
  decide

/-- C6 (amended): when both kinds are empty the run does not end early: the
report text (header and footer only) is still the first notification
attempted, and the alert list is empty. -/
theorem report_always_attempted (s : TrackerState) (yesterday : Nat)
    (ok : Notification → Bool) (dateStr : String)
    (h1 : s.current_pages = []) (h2 : s.current_workers = []) :
    Notification.text (generate_report s dateStr) ∈
      send_report_attempts s yesterday ok dateStr ∧
    check_thresholds s yesterday = [] := by
  constructor
  · unfold send_report_attempts
    by_cases hok : ok (Notification.text (generate_report s dateStr)) = false
    · rw [if_pos hok]
      exact List.mem_singleton.mpr rfl
    · rw [if_neg hok]
      exact List.mem_cons_self _ _
  · simp [check_thresholds, h1, h2]

/-- Witness for C6 (amended) at the empty state with an all-failing sink. -/
theorem report_always_attempted_witness :
    sEmpty.current_pages = [] ∧
    Notification.text (generate_report sEmpty "2026-10-12") ∈
      send_report_attempts sEmpty 9 (fun _ => false) "2026-10-12" :=
  ⟨rfl, (report_always_attempted sEmpty 9 (fun _ => false) "2026-10-12" rfl rfl).1⟩

/-- Scenario B of the spec: yesterday 800, today 500 for one worker, with a
non-empty history, so both an alert and a chart are pending. -/
def sB : TrackerState :=
  { current_pages := [], current_workers := [("svc1", 500)],
    history := { pages := [], workers := [("svc1", [(9, 800), (10, 500)])] },
    thresholds := ⟨30, 30, 35, 30⟩ }

/-- Counterexample for C7: when the report text send fails, `send_report`
returns early — although an alert and a chart are pending, nothing after
the report is attempted. -/
theorem report_failure_blocks_rest :
    send_report_attempts sB 9 (fun _ => false) "2026-10-12" =
      [Notification.text (generate_report sB "2026-10-12")] ∧
    (check_thresholds sB 9).isEmpty = false ∧
    generate_charts sB.history = ["workers_trend.png"] := by
  decide

/-- C7 (amended): the notification stage is best-effort only after the
report: a failed report send aborts the remaining notifications, while
after a successful report send the alert message (when alerts exist) and
every chart are attempted regardless of the outcome of those sends. -/
theorem send_report_best_effort (s : TrackerState) (yesterday : Nat)
    (ok : Notification → Bool) (dateStr : String) :
    (ok (Notification.text (generate_report s dateStr)) = false →
      send_report_attempts s yesterday ok dateStr =
        [Notification.text (generate_report s dateStr)]) ∧
    (ok (Notification.text (generate_report s dateStr)) = true →
      ((check_thresholds s yesterday).isEmpty = false →
        Notification.text (alertMessage (check_thresholds s yesterday)) ∈
          send_report_attempts s yesterday ok dateStr) ∧
      (∀ chart ∈ generate_charts s.history,
        Notification.photo chart (captionFor chart) ∈
          send_report_attempts s yesterday ok dateStr)) := by
  constructor
  · intro h
    unfold send_report_attempts
    rw [if_pos h]
  · intro h
    have hok : ¬ (ok (Notification.text (generate_report s dateStr)) = false) := by
      simp [h]
    constructor
    · intro ha
      unfold send_report_attempts
      rw [if_neg hok]
      refine List.mem_cons_of_mem _ (List.mem_append_left _ ?_)
      rw [ha]
      exact List.mem_singleton.mpr rfl
    · intro chart hc
      unfold send_report_attempts
      rw [if_neg hok]
      exact List.mem_cons_of_mem _
        (List.mem_append_right _
          (List.mem_map_of_mem (fun c => Notification.photo c (captionFor c)) hc))

/-- Witness for C7 (amended): with an all-succeeding sink, scenario B's
alert message is among the attempted notifications. -/
theorem send_report_best_effort_witness :
    ((fun _ : Notification => true)
        (Notification.text (generate_report sB "2026-10-12")) = true) ∧
    Notification.text (alertMessage (check_thresholds sB 9)) ∈
      send_report_attempts sB 9 (fun _ => true) "2026-10-12" :=
  ⟨rfl,
   ((send_report_best_effort sB 9 (fun _ => true) "2026-10-12").2 rfl).1 (by decide)⟩

/-- Counterexample for C8: `_save_history` performs no rename at all and
opens the history file itself for truncating write — there is no temp-file
plus atomic-replace step, so a crash between open and close can leave a
partially-written file at the real path. -/
theorem save_history_no_rename :
    (save_history_ops "history/history.json" "\x7b\x7d").all
      (fun op => ! op.isRename) = true ∧
    FsOp.openTrunc "history/history.json" ∈
      save_history_ops "history/history.json" "\x7b\x7d" := by
  decide

/-- C8 (amended): `_save_history` writes the serialized history directly to
the history file (after `makedirs`), with no temporary location and no
rename; write errors are merely caught and logged, so atomicity is not
provided. -/
theorem save_history_direct_write (historyFile contents : String) :
    FsOp.write historyFile contents ∈ save_history_ops historyFile contents ∧
    (save_history_ops historyFile contents).all (fun op => ! op.isRename) = true := by
  constructor
  · simp [save_history_ops]
  · simp [save_history_ops, FsOp.isRename]

theorem lookupA_isSome_of_mem_keys {κ ν : Type} [DecidableEq κ]
    {l : List (κ × ν)} {k : κ} (h : k ∈ l.map Prod.fst) :
    (lookupA l k).isSome = true := by
  induction l with
  | nil => cases h
  | cons p t ih =>
    by_cases hp : p.1 = k
    · simp [lookupA, hp]
    · rcases List.mem_cons.mp h with h | h
      · exact absurd h.symm hp
      · simp only [lookupA, if_neg hp]
        exact ih h

theorem filterMap_lookup_length {m : List (Nat × Int)} {ds : List Nat}
    (h : ∀ d ∈ ds, d ∈ m.map Prod.fst) :
    (ds.filterMap (fun d => (lookupA m d).map (fun c => (d, c)))).length = ds.length := by
  induction ds with
  | nil => rfl
  | cons d t ih =>
    have hd := lookupA_isSome_of_mem_keys (h d (List.mem_cons_self d t))
    rcases Option.isSome_iff_exists.mp hd with ⟨c, hc⟩
    simp [List.filterMap_cons, hc, ih (fun x hx => h x (List.mem_cons_of_mem _ hx))]

theorem map_fst_filterMap_lookup_sublist (m : List (Nat × Int)) (ds : List Nat) :
    ((ds.filterMap (fun d => (lookupA m d).map (fun c => (d, c)))).map Prod.fst).Sublist
      ds := by
  induction ds with
  | nil => simp
  | cons d t ih =>
    rw [List.filterMap_cons]
    cases hl : lookupA m d with
    | none => exact ih.cons d
    | some c => exact ih.cons₂ d

theorem chartSeriesKind_spec {hist : KindHistory} {r : String}
    {pts : List (Nat × Int)} (h : (r, pts) ∈ chartSeriesKind hist) :
    2 ≤ pts.length ∧ List.Sorted (fun a b => a ≤ b) (pts.map Prod.fst) := by
  unfold chartSeriesKind at h
  rcases List.mem_filterMap.mp h with ⟨p, _hp, hf⟩
  by_cases hlen : 1 < p.2.length
  · rw [if_pos hlen] at hf
    injection hf with hf
    have hpts : pts =
        (List.insertionSort (fun a b => a ≤ b) (p.2.map Prod.fst)).filterMap
          (fun d => (lookupA p.2 d).map (fun c => (d, c))) := by
      have := congrArg Prod.snd hf
      simpa using this.symm
    have hperm : (List.insertionSort (fun a b => a ≤ b) (p.2.map Prod.fst)).Perm
        (p.2.map Prod.fst) := List.perm_insertionSort _ _
    constructor
    · rw [hpts, filterMap_lookup_length (fun d hd => hperm.mem_iff.mp hd)]
      rw [hperm.length_eq, List.length_map]
      omega
    · have hsorted : List.Sorted (fun a b => a ≤ b)
          (List.insertionSort (fun a b => a ≤ b) (p.2.map Prod.fst)) :=
        List.sorted_insertionSort _ _
      rw [hpts]
      exact List.Pairwise.sublist (map_fst_filterMap_lookup_sublist _ _) hsorted
  · rw [if_neg hlen] at hf
    cases hf

/-- History for the C9 counterexample: one resource with a single date. -/
def h9 : HistoryData :=
  { pages := [("r", [(0, 5)])], workers := [] }

/-- Counterexample for C9: the code renders a chart whenever the kind's
history dict is non-empty — here every resource has fewer than 2 dates, yet
the pages chart is still produced. -/
theorem chart_rendered_without_two_dates :
    generate_charts h9 = ["pages_trend.png"] ∧
    h9.pages.all (fun p => p.2.length < 2) = true := by
  decide

/-- C9 (amended): a chart is rendered for a kind iff that kind's history is
non-empty (regardless of how many dates any resource has); within a
rendered chart every plotted resource has at least 2 data points and its
dates are sorted ascending. -/
theorem generate_charts_spec (h : HistoryData) :
    (("pages_trend.png" ∈ generate_charts h) ↔ h.pages.isEmpty = false) ∧
    (("workers_trend.png" ∈ generate_charts h) ↔ h.workers.isEmpty = false) ∧
    (∀ r pts, ((r, pts) ∈ chartSeriesKind h.pages ∨
        (r, pts) ∈ chartSeriesKind h.workers) →
      2 ≤ pts.length ∧ List.Sorted (fun a b => a ≤ b) (pts.map Prod.fst)) := by
  refine ⟨?_, ?_, ?_⟩
  · unfold generate_charts
    by_cases hp : h.pages.isEmpty
    · by_cases hw : h.workers.isEmpty
      · rw [if_pos hp, if_pos hw, hp]
        decide
      · rw [if_pos hp, if_neg hw, hp]
        decide
    · have hp' : h.pages.isEmpty = false := Bool.eq_false_iff.mpr hp
      by_cases hw : h.workers.isEmpty
      · rw [if_neg hp, if_pos hw, hp']
        decide
      · rw [if_neg hp, if_neg hw, hp']
        decide
  · unfold generate_charts
    by_cases hp : h.pages.isEmpty
    · by_cases hw : h.workers.isEmpty
      · rw [if_pos hp, if_pos hw, hw]
        decide
      · have hw' : h.workers.isEmpty = false := Bool.eq_false_iff.mpr hw
        rw [if_pos hp, if_neg hw, hw']
        decide
    · by_cases hw : h.workers.isEmpty
      · rw [if_neg hp, if_pos hw, hw]
        decide
      · have hw' : h.workers.isEmpty = false := Bool.eq_false_iff.mpr hw
        rw [if_neg hp, if_neg hw, hw']
        decide
  · rintro r pts (hmem | hmem)
    · exact chartSeriesKind_spec hmem
    · exact chartSeriesKind_spec hmem

/-- History for the C9 witness: two dates given out of order. -/
def h9w : HistoryData :=
  { pages := [("r", [(1, 5), (0, 6)])], workers := [] }

/-- Witness for C9 (amended): the plotted series of `h9w` has 2 points and
sorted dates, and the pages chart appears exactly because the history is
non-empty. -/
theorem generate_charts_spec_witness :
    (("pages_trend.png" ∈ generate_charts h9w) ↔ h9w.pages.isEmpty = false) ∧
    (2 ≤ ([((0 : Nat), (6 : Int)), (1, 5)].length) ∧
      List.Sorted (fun a b => a ≤ b) ([((0 : Nat), (6 : Int)), (1, 5)].map Prod.fst)) :=
  ⟨(generate_charts_spec h9w).1,
   (generate_charts_spec h9w).2.2 "r" [(0, 6), (1, 5)] (Or.inl (by decide))⟩
